import Mathlib

/-!
Verification of the `lit-watch` watcher core (`lib/createWatcher.ts`).

The decorator produced by `createWatcher(observable)(selector)` closes over
four pieces of mutable state per decorated property: the `subscribers`
array, `currentValue`, the deferred `thunk`, and — per host instance — a
hidden `subscriptionKey` slot holding the unsubscribe closure returned by
`subscribe`.  The host's `requestUpdate` calls are observable effects; the
test harness records them as a log, and we model them the same way.

Subscriber closures are identified by fresh natural numbers (`subscribe`
allocates a fresh closure on every call, so closure identity is exactly
freshness of the identifier).  The thunk closure captures only the pushed
snapshot (the selector is fixed per binding), so it is modelled as the
captured snapshot itself.
-/

namespace LitWatch

/-- Identity of a host instance (`this` inside the lifecycle wrappers). -/
abbrev InstId := Nat

/-- Identity of one subscriber closure created by `subscribe`. -/
abbrev SubId := Nat

/-- The mutable state of one `WatchBinding`: the closure variables of
`watchDecorator` in `lib/createWatcher.ts` (`subscribers`, `currentValue`,
`thunk`), each instance's hidden `subscriptionKey` slot, a counter
providing fresh subscriber identities, and the log of `requestUpdate`
calls (instance, previousValue) issued by subscriber notifiers. -/
structure BindingState (σ v : Type) where
  subscribers : List (SubId × InstId)
  currentValue : v
  thunk : Option σ
  slots : InstId → Option SubId
  nextId : SubId
  requested : List (InstId × v)

variable {σ v : Type}

/-- The unsubscribe closure returned by `subscribe`:
`subscribers = subscribers.filter((item) => item !== subscriber)`. -/
def unsubscribe (h : SubId) (subs : List (SubId × InstId)) : List (SubId × InstId) :=
  subs.filter (fun item => item.1 != h)

/-- The push handler installed by `from(observable).subscribe(...)`
(`lib/createWatcher.ts` lines 320-344).  With no subscribers it records a
thunk capturing the snapshot (and does not consult the selector); with
subscribers it computes `nextValue`, and on reference inequality stores it
and notifies every subscriber with the previous value.  Note that the
subscriber branch leaves any pending `thunk` in place. -/
def pushStep [DecidableEq v] (sel : σ → v) (st : BindingState σ v) (s : σ) :
    BindingState σ v :=
  if st.subscribers = [] then
    { st with thunk := some s }
  else
    if st.currentValue = sel s then
      st
    else
      { st with
        currentValue := sel s
        requested := st.requested ++ st.subscribers.map (fun p => (p.2, st.currentValue)) }

/-- The getter installed by `configureSetter`: run the thunk if one
exists (`thunk?.()`), which overwrites `currentValue` with the selection
of the captured snapshot and clears the thunk. -/
def readStep (sel : σ → v) (st : BindingState σ v) : BindingState σ v :=
  match st.thunk with
  | some s => { st with currentValue := sel s, thunk := none }
  | none => st

/-- The value returned by the getter: `currentValue` after the thunk (if
any) has run. -/
def readVal (sel : σ → v) (st : BindingState σ v) : v :=
  (readStep sel st).currentValue

/-- Body of the wrapped `connectedCallback` after the call-through to the
pre-existing hook: invoke the instance's stored unsubscribe handle if one
exists (`ctx[subscriptionKey]?.()`), then register a fresh subscriber for
the instance and store its unsubscribe handle in the hidden slot.  The
defensive property-descriptor repair that precedes this reinstalls the
same getter on the instance and does not touch the binding state, so it
has no counterpart here. -/
def connectBody (st : BindingState σ v) (i : InstId) : BindingState σ v :=
  { st with
    subscribers :=
      (match st.slots i with
        | some h => unsubscribe h st.subscribers
        | none => st.subscribers) ++ [(st.nextId, i)]
    slots := fun j => if j = i then some st.nextId else st.slots j
    nextId := st.nextId + 1 }

/-- The wrapped `connectedCallback`: call through to the pre-existing
hook first, then run the subscription bookkeeping. -/
def connectedCallback (orig : InstId → BindingState σ v → BindingState σ v)
    (i : InstId) (st : BindingState σ v) : BindingState σ v :=
  connectBody (orig i st) i

/-- Body of the wrapped `disconnectedCallback` before the call-through:
invoke the stored unsubscribe handle if one exists.  The hidden slot is
left untouched (the source only calls `ctx[subscriptionKey]?.()`). -/
def disconnectBody (st : BindingState σ v) (i : InstId) : BindingState σ v :=
  match st.slots i with
  | some h => { st with subscribers := unsubscribe h st.subscribers }
  | none => st

/-- The wrapped `disconnectedCallback`: unsubscribe first, then call
through to the pre-existing hook. -/
def disconnectedCallback (orig : InstId → BindingState σ v → BindingState σ v)
    (i : InstId) (st : BindingState σ v) : BindingState σ v :=
  orig i (disconnectBody st i)

/-- One observable interaction with a binding: a push from the source, a
host instance connecting or disconnecting, or a read of the decorated
property. -/
inductive Event (σ : Type) where
  | push (s : σ)
  | connect (i : InstId)
  | disconnect (i : InstId)
  | read

/-- One step of the binding's behaviour.  The pre-existing lifecycle
hooks are no-ops here (as in the repository's test components); the
generic wrappers `connectedCallback`/`disconnectedCallback` cover
call-through. -/
def step [DecidableEq v] (sel : σ → v) (st : BindingState σ v) : Event σ → BindingState σ v
  | .push s => pushStep sel st s
  | .connect i => connectBody st i
  | .disconnect i => disconnectBody st i
  | .read => readStep sel st

/-- The state at decoration time: no subscribers, `currentValue`
uninitialized (the JS `undefined`, supplied as `undef`), no thunk, no
hidden slots, nothing requested. -/
def initState (undef : v) : BindingState σ v :=
  { subscribers := []
    currentValue := undef
    thunk := none
    slots := fun _ => none
    nextId := 0
    requested := [] }

/-- Run a sequence of interactions from a state. -/
def run [DecidableEq v] (sel : σ → v) (st : BindingState σ v) :
    List (Event σ) → BindingState σ v
  | [] => st
  | e :: es => run sel (step sel st e) es

/-- Number of registry entries owned by instance `i`. -/
def ownerCount (subs : List (SubId × InstId)) (i : InstId) : Nat :=
  (subs.filter (fun p => p.2 == i)).length

/-- Number of `requestUpdate` calls logged for instance `i`. -/
def instCalls (log : List (InstId × v)) (i : InstId) : Nat :=
  (log.filter (fun e => e.1 == i)).length

/-- Claim C7: a push received while no subscriber is registered does not
apply the selection function (the resulting state is independent of the
selector), leaves the stored current value and the request log unchanged,
and records a thunk capturing exactly this snapshot, replacing any prior
one. -/
theorem push_without_subscribers_defers [DecidableEq v] (sel sel' : σ → v)
    (st : BindingState σ v) (s : σ) (hsubs : st.subscribers = []) :
    pushStep sel st s = { st with thunk := some s } ∧
    pushStep sel st s = pushStep sel' st s ∧
    readVal sel (pushStep sel st s) = sel s := by
  simp [pushStep, hsubs, readVal, readStep]

/-- Witness for C7 at a concrete state with a pending thunk: the new push
replaces it. -/
theorem push_without_subscribers_defers_witness :
    pushStep (fun s => s) { (initState 0 : BindingState Nat Nat) with thunk := some 1 } 2 =
      { (initState 0 : BindingState Nat Nat) with thunk := some 2 } :=
  (push_without_subscribers_defers (fun s => s) (fun _ => 99)
    { (initState 0 : BindingState Nat Nat) with thunk := some 1 } 2 rfl).1

/-- Claim C8: reading the decorated property twice in a row with no
intervening push returns the same value both times and forces the
deferred computation at most once — after the first read no thunk is
pending and a second read changes nothing. -/
theorem read_twice_idempotent (sel : σ → v) (st : BindingState σ v) :
    readVal sel (readStep sel st) = readVal sel st ∧
    (readStep sel st).thunk = none ∧
    readStep sel (readStep sel st) = readStep sel st := by
  cases h : st.thunk <;> simp [readStep, readVal, h]

/-- Claim C2: on a push with at least one registered subscriber, if the
selection of the snapshot is reference-equal to the stored current value
the state is unchanged (no subscriber invoked, value kept); if unequal,
the value is updated and the request log is extended by exactly one
notification per registered subscriber, each carrying the previous
derived value, with the registry itself unchanged. -/
theorem push_with_subscribers_notifies [DecidableEq v] (sel : σ → v)
    (st : BindingState σ v) (s : σ) (hsubs : st.subscribers ≠ []) :
    (st.currentValue = sel s → pushStep sel st s = st) ∧
    (st.currentValue ≠ sel s →
      (pushStep sel st s).currentValue = sel s ∧
      (pushStep sel st s).requested =
        st.requested ++ st.subscribers.map (fun p => (p.2, st.currentValue)) ∧
      (pushStep sel st s).subscribers = st.subscribers) := by
  constructor
  · intro heq
    simp [pushStep, hsubs, heq]
  · intro hne
    simp [pushStep, hsubs, hne]

/-- Witness for C2: one subscriber, a push whose selection differs from
the stored value logs exactly one notification with the previous value. -/
theorem push_with_subscribers_notifies_witness :
    (pushStep (fun s => s)
        { (initState 0 : BindingState Nat Nat) with subscribers := [(0, 7)], nextId := 1 }
        2).requested =
      [] ++ [((0, 7).2, (0 : Nat))] :=
  ((push_with_subscribers_notifies (fun s => s)
      { (initState 0 : BindingState Nat Nat) with subscribers := [(0, 7)], nextId := 1 }
      2 (by decide)).2 (by decide)).2.1

/-- Claim C1 fails on the code: after the trace
`push 1; connect instance 0; push 2` the pending thunk from the first
push was never cleared by the subscribed second push, so the getter
forces the stale thunk and returns the selection of snapshot `1`, not of
the most recent snapshot `2` (the selector is the identity). -/
theorem stale_thunk_overrides_newer_value :
    readVal (fun s => s)
        (run (fun s => s) (initState 0) [Event.push 1, Event.connect 0, Event.push 2]) = 1 ∧
    readVal (fun s => s)
        (run (fun s => s) (initState 0) [Event.push 1, Event.connect 0, Event.push 2]) ≠
      (fun s => s) 2 := by
  decide

/-- Claim C5 fails on the code: after `connect 0; disconnect 0` the
disconnected instance indeed receives no further `requestUpdate`
(`instCalls … 0 = 0`), but the trace `push 1; connect 1; push 2` leaves
the stale thunk from the unobserved push pending, so reading afterwards
returns the selection of snapshot `1` instead of the latest snapshot
`2`. -/
theorem read_after_disconnect_is_stale :
    instCalls
        (run (fun s => s) (initState 0)
          [Event.connect 0, Event.disconnect 0, Event.push 1, Event.connect 1,
            Event.push 2]).requested 0 = 0 ∧
    readVal (fun s => s)
        (run (fun s => s) (initState 0)
          [Event.connect 0, Event.disconnect 0, Event.push 1, Event.connect 1,
            Event.push 2]) = 1 ∧
    readVal (fun s => s)
        (run (fun s => s) (initState 0)
          [Event.connect 0, Event.disconnect 0, Event.push 1, Event.connect 1,
            Event.push 2]) ≠ (fun s => s) 2 := by
  decide

/-- Member kind of a TC39 proposal ClassElement (`'field' | 'method'`). -/
inductive ElementKind where
  | field
  | method
deriving DecidableEq

/-- The slice of a PropertyDescriptor that the decorator's guard
inspects: whether `value` is present.  A plain method member's
descriptor carries `value`; an accessor's descriptor (get/set) does
not. -/
structure ElementDescriptor where
  hasValue : Bool
deriving DecidableEq

/-- A TC39 proposal ClassElement, restricted to the fields
`watchDecorator` inspects in its guard. -/
structure ClassElement where
  kind : ElementKind
  key : String
  descriptor : Option ElementDescriptor
deriving DecidableEq

/-- The guard of `watchDecorator` in the TC39 branch
(`lib/createWatcher.ts` lines 401-412): it throws exactly when
`classElement.kind === 'method' && classElement.descriptor !== undefined
&& !('value' in classElement.descriptor)`, with the message naming the
member; every other element passes without error. -/
def accessorGuard (e : ClassElement) : Except String Unit :=
  match e.kind, e.descriptor with
  | .method, some d =>
      if d.hasValue then
        Except.ok ()
      else
        Except.error ("Unable to decorate an accessor (\"" ++ e.key ++ "\")")
  | _, _ => Except.ok ()

/-- Claim C3 fails on the code: a plain method member — kind `method`
with a descriptor that contains `value` — passes the guard without any
error, because the guard only rejects elements whose descriptor lacks
`value` (accessors). -/
theorem method_member_passes_guard :
    accessorGuard
        { kind := ElementKind.method, key := "someMethod",
          descriptor := some { hasValue := true } } =
      Except.ok () := rfl

/-- Claim C3 amended: decoration fails synchronously, with an error
naming the member, exactly for accessor members (method-kind elements
whose descriptor lacks `value`); data-holding properties, plain method
members (descriptor contains `value`) and descriptor-less method
elements all pass without error. -/
theorem guard_rejects_only_accessors (k : String) (d : Option ElementDescriptor) :
    accessorGuard { kind := ElementKind.field, key := k, descriptor := d } = Except.ok () ∧
    accessorGuard { kind := ElementKind.method, key := k, descriptor := none } =
      Except.ok () ∧
    accessorGuard
        { kind := ElementKind.method, key := k, descriptor := some { hasValue := true } } =
      Except.ok () ∧
    accessorGuard
        { kind := ElementKind.method, key := k, descriptor := some { hasValue := false } } =
      Except.error ("Unable to decorate an accessor (\"" ++ k ++ "\")") :=
  ⟨rfl, rfl, rfl, rfl⟩

/-- A redux-style store state with a single `slice`, the shape used by
the repository's tests and the spec's store-seeding scenario. -/
structure StoreState where
  slice : List String
deriving DecidableEq

/-- Modelled from the spec: the source normalization performed by rxjs
`from(store)` together with redux's `Symbol.observable` interop is not
part of this repository's sources.  Per the spec, a store-like Source is
normalized into a push sequence that starts with a snapshot synthesized
from the store's current-snapshot accessor (`getState`) and continues
with the pushes produced by subsequent dispatches. -/
def normalizeStore (getState : σ) (dispatchPushes : List σ) : List σ :=
  getState :: dispatchPushes

/-- Claim C6: for a store whose current snapshot is `{slice: []}` and a
property decorated with `watch()` (identity selection), constructing a
host instance (which connects it) and then reading the property before
any dispatch yields `{slice: []}`: the synthesized initial push was
deferred into a thunk and the read forces it.  Values live in
`Option StoreState` because the JS `currentValue` starts out
`undefined`. -/
theorem store_seeding_reads_initial_snapshot :
    readVal (fun s => s)
        (run (fun s => s) (initState (none : Option StoreState))
          ((normalizeStore (some { slice := [] }) []).map Event.push ++
            [Event.connect 0])) =
      some { slice := [] } := rfl

/-- Claim C9 fails on the code: the wrapped disconnect hook invokes the
stored unsubscribe handle but never clears the hidden slot — after
`connect 0; disconnect 0` the slot still holds a handle. -/
theorem slot_survives_disconnect :
    (run (fun s => s) (initState (0 : Nat))
        ([Event.connect 0, Event.disconnect 0] : List (Event Nat))).slots 0 ≠ none := by
  decide

/-- Claim C9 amended: when a hidden unsubscribe handle exists for the
instance, the wrapped disconnect hook invokes it (filtering that
subscriber out of the registry) and then calls through to the
pre-existing disconnect behaviour; the hidden slot is left unchanged,
still holding the (now inert) handle.  Without a handle it only calls
through. -/
theorem disconnect_invokes_handle_keeps_slot
    (orig : InstId → BindingState σ v → BindingState σ v)
    (st : BindingState σ v) (i : InstId) :
    (st.slots i = none → disconnectedCallback orig i st = orig i st) ∧
    (∀ h, st.slots i = some h →
      disconnectedCallback orig i st =
        orig i { st with subscribers := unsubscribe h st.subscribers }) := by
  constructor
  · intro hnone
    simp [disconnectedCallback, disconnectBody, hnone]
  · intro h hsome
    simp [disconnectedCallback, disconnectBody, hsome]

/-- Witness for the amended C9: after one connect of instance `0`, the
slot holds handle `0`, and disconnecting filters that subscriber while
keeping every other field (including the slot) unchanged. -/
theorem disconnect_invokes_handle_keeps_slot_witness :
    disconnectedCallback (fun _ s => s) 0
        (run (fun s => s) (initState (0 : Nat)) ([Event.connect 0] : List (Event Nat))) =
      { run (fun s => s) (initState (0 : Nat)) ([Event.connect 0] : List (Event Nat)) with
        subscribers :=
          unsubscribe 0
            (run (fun s => s) (initState (0 : Nat))
              ([Event.connect 0] : List (Event Nat))).subscribers } :=
  (disconnect_invokes_handle_keeps_slot (fun _ s => s) _ 0).2 0 rfl

/-- Claim C10: the unsubscribe closure returned by `subscribe` is
idempotent and isolated — invoking it any positive number of times
leaves the registry equal to the registry with exactly that subscriber's
entries removed; every other registered subscriber survives, and the
result contains nothing but surviving original entries. -/
theorem unsubscribe_idempotent_isolated (subs : List (SubId × InstId)) (h : SubId)
    (n : Nat) (hn : 1 ≤ n) :
    Nat.iterate (unsubscribe h) n subs = unsubscribe h subs ∧
    (∀ p ∈ subs, p.1 ≠ h → p ∈ unsubscribe h subs) ∧
    (∀ p ∈ unsubscribe h subs, p ∈ subs ∧ p.1 ≠ h) := by
  have hid : ∀ l, unsubscribe h (unsubscribe h l) = unsubscribe h l := by
    intro l
    simp [unsubscribe, List.filter_filter]
  obtain ⟨k, rfl⟩ : ∃ k, n = k + 1 := ⟨n - 1, by omega⟩
  refine ⟨?_, ?_, ?_⟩
  · rw [Function.iterate_succ_apply]
    induction k with
    | zero => rfl
    | succ k ih =>
        rw [Function.iterate_succ_apply, hid]
        exact ih (by omega)
  · intro p hp hne
    simp [unsubscribe, List.mem_filter, hp, hne]
  · intro p hp
    simpa [unsubscribe, List.mem_filter] using hp

/-- Witness for C10: invoking the handle twice equals invoking it
once on a concrete two-subscriber registry. -/
theorem unsubscribe_idempotent_isolated_witness :
    Nat.iterate (unsubscribe 0) 2 [(0, 5), (1, 6)] = unsubscribe 0 [(0, 5), (1, 6)] :=
  (unsubscribe_idempotent_isolated [(0, 5), (1, 6)] 0 2 (by decide)).1

/-- The registry/slot bookkeeping invariant the binding maintains: every
registry entry's owner has a hidden slot pointing back at that entry's
identifier, every identifier appearing in the registry or in a slot is
below the freshness counter, and registry identifiers are pairwise
distinct. -/
structure Inv (st : BindingState σ v) : Prop where
  slot_of_mem : ∀ p ∈ st.subscribers, st.slots p.2 = some p.1
  id_lt : ∀ p ∈ st.subscribers, p.1 < st.nextId
  slot_lt : ∀ i h, st.slots i = some h → h < st.nextId
  ids_nodup : st.subscribers.Pairwise (fun p q => p.1 ≠ q.1)

lemma inv_of_fields_eq {st st' : BindingState σ v} (hinv : Inv st)
    (hs : st'.subscribers = st.subscribers) (hl : st'.slots = st.slots)
    (hn : st'.nextId = st.nextId) : Inv st' := by
  constructor
  · simp only [hs, hl]
    exact hinv.slot_of_mem
  · simp only [hs, hn]
    exact hinv.id_lt
  · simp only [hl, hn]
    exact hinv.slot_lt
  · simp only [hs]
    exact hinv.ids_nodup

lemma pushStep_fields [DecidableEq v] (sel : σ → v) (st : BindingState σ v) (s : σ) :
    (pushStep sel st s).subscribers = st.subscribers ∧
    (pushStep sel st s).slots = st.slots ∧
    (pushStep sel st s).nextId = st.nextId := by
  unfold pushStep
  split
  · exact ⟨rfl, rfl, rfl⟩
  · split
    · exact ⟨rfl, rfl, rfl⟩
    · exact ⟨rfl, rfl, rfl⟩

lemma inv_pushStep [DecidableEq v] (sel : σ → v) {st : BindingState σ v} (s : σ)
    (hinv : Inv st) : Inv (pushStep sel st s) :=
  inv_of_fields_eq hinv (pushStep_fields sel st s).1 (pushStep_fields sel st s).2.1
    (pushStep_fields sel st s).2.2

lemma inv_readStep (sel : σ → v) {st : BindingState σ v} (hinv : Inv st) :
    Inv (readStep sel st) := by
  unfold readStep
  split
  · exact inv_of_fields_eq hinv rfl rfl rfl
  · exact hinv

lemma mem_unsubscribe {h : SubId} {subs : List (SubId × InstId)} {p : SubId × InstId} :
    p ∈ unsubscribe h subs ↔ p ∈ subs ∧ p.1 ≠ h := by
  simp [unsubscribe, List.mem_filter]

lemma inv_connectBody {st : BindingState σ v} (i : InstId) (hinv : Inv st) :
    Inv (connectBody st i) := by
  have hsurv :
      ∀ p ∈ (match st.slots i with
        | some h => unsubscribe h st.subscribers
        | none => st.subscribers),
        p ∈ st.subscribers ∧ p.2 ≠ i := by
    cases hslot : st.slots i with
    | none =>
        intro p hp
        refine ⟨hp, ?_⟩
        intro hpi
        have := hinv.slot_of_mem p hp
        rw [hpi, hslot] at this
        exact Option.noConfusion this
    | some h =>
        intro p hp
        obtain ⟨hmem, hne⟩ := mem_unsubscribe.mp hp
        refine ⟨hmem, ?_⟩
        intro hpi
        have := hinv.slot_of_mem p hmem
        rw [hpi, hslot] at this
        exact hne (Option.some.inj this).symm
  have hpairwise :
      ((match st.slots i with
        | some h => unsubscribe h st.subscribers
        | none => st.subscribers) : List (SubId × InstId)).Pairwise
        (fun p q => p.1 ≠ q.1) := by
    cases hslot : st.slots i with
    | none => exact hinv.ids_nodup
    | some h => exact hinv.ids_nodup.sublist (List.filter_sublist _)
  constructor
  · intro p hp
    rcases List.mem_append.mp hp with hp | hp
    · obtain ⟨hmem, hni⟩ := hsurv p hp
      show (if p.2 = i then some st.nextId else st.slots p.2) = some p.1
      rw [if_neg hni]
      exact hinv.slot_of_mem p hmem
    · rcases List.mem_singleton.mp hp with rfl
      show (if i = i then some st.nextId else st.slots i) = some st.nextId
      simp
  · intro p hp
    rcases List.mem_append.mp hp with hp | hp
    · exact Nat.lt_succ_of_lt (hinv.id_lt p (hsurv p hp).1)
    · rcases List.mem_singleton.mp hp with rfl
      exact Nat.lt_succ_self _
  · intro j h
    show (if j = i then some st.nextId else st.slots j) = some h → h < st.nextId + 1
    split
    · intro hj
      rw [Option.some.inj hj]
      exact Nat.lt_succ_self _
    · intro hj
      exact Nat.lt_succ_of_lt (hinv.slot_lt j h hj)
  · refine List.pairwise_append.mpr ⟨hpairwise, List.pairwise_singleton _ _, ?_⟩
    intro a ha b hb
    rcases List.mem_singleton.mp hb with rfl
    exact Nat.ne_of_lt (hinv.id_lt a (hsurv a ha).1)

lemma inv_disconnectBody {st : BindingState σ v} (i : InstId) (hinv : Inv st) :
    Inv (disconnectBody st i) := by
  unfold disconnectBody
  split
  · constructor
    · intro p hp
      exact hinv.slot_of_mem p (mem_unsubscribe.mp hp).1
    · intro p hp
      exact hinv.id_lt p (mem_unsubscribe.mp hp).1
    · exact hinv.slot_lt
    · exact hinv.ids_nodup.sublist (List.filter_sublist _)
  · exact hinv

lemma inv_step [DecidableEq v] (sel : σ → v) {st : BindingState σ v} (e : Event σ)
    (hinv : Inv st) : Inv (step sel st e) := by
  cases e with
  | push s => exact inv_pushStep sel s hinv
  | connect i => exact inv_connectBody i hinv
  | disconnect i => exact inv_disconnectBody i hinv
  | read => exact inv_readStep sel hinv

lemma inv_initState (undef : v) : Inv (initState undef : BindingState σ v) := by
  constructor <;> simp [initState]

lemma inv_run [DecidableEq v] (sel : σ → v) (undef : v) (tr : List (Event σ)) :
    Inv (run sel (initState undef) tr) := by
  suffices hgen : ∀ st : BindingState σ v, Inv st → Inv (run sel st tr) from
    hgen _ (inv_initState undef)
  induction tr with
  | nil => exact fun _ h => h
  | cons e es ih => exact fun st h => ih _ (inv_step sel e h)

lemma inv_ownerCount_le_one {st : BindingState σ v} (hinv : Inv st) (i : InstId) :
    ownerCount st.subscribers i ≤ 1 := by
  unfold ownerCount
  cases hfl : st.subscribers.filter (fun p => p.2 == i) with
  | nil => simp
  | cons a t =>
    cases t with
    | nil => simp
    | cons b t' =>
      exfalso
      have hpw : (st.subscribers.filter (fun p => p.2 == i)).Pairwise
          (fun p q => p.1 ≠ q.1) :=
        hinv.ids_nodup.sublist (List.filter_sublist _)
      rw [hfl] at hpw
      have hab : a.1 ≠ b.1 :=
        (List.pairwise_cons.mp hpw).1 b (List.mem_cons_self b t')
      have ha : a ∈ st.subscribers.filter (fun p => p.2 == i) := by
        rw [hfl]
        exact List.mem_cons_self _ _
      have hb : b ∈ st.subscribers.filter (fun p => p.2 == i) := by
        rw [hfl]
        exact List.mem_cons_of_mem _ (List.mem_cons_self _ _)
      obtain ⟨hamem, hai⟩ := List.mem_filter.mp ha
      obtain ⟨hbmem, hbi⟩ := List.mem_filter.mp hb
      have hsa := hinv.slot_of_mem a hamem
      have hsb := hinv.slot_of_mem b hbmem
      rw [beq_iff_eq] at hai hbi
      rw [hai] at hsa
      rw [hbi] at hsb
      rw [hsa] at hsb
      exact hab (Option.some.inj hsb)

lemma instCalls_append (l1 l2 : List (InstId × v)) (i : InstId) :
    instCalls (l1 ++ l2) i = instCalls l1 i + instCalls l2 i := by
  simp [instCalls, List.filter_append]

lemma instCalls_notifications (subs : List (SubId × InstId)) (prev : v) (i : InstId) :
    instCalls (subs.map (fun p => (p.2, prev))) i = ownerCount subs i := by
  induction subs with
  | nil => rfl
  | cons a t ih =>
      by_cases h : a.2 = i <;>
        simp [instCalls, ownerCount, List.filter_cons, h] at ih ⊢ <;>
        omega

/-- Claim C4: for every interleaving of pushes, connects, disconnects
and reads, each instance owns at most one active registration in the
binding's registry; a re-connect first invokes the previously stored
unsubscribe handle (filtering out the old registration) before appending
the fresh one; and any single push adds at most one `requestUpdate`
call to the log for a given instance. -/
theorem at_most_one_registration_per_instance [DecidableEq v] (sel : σ → v) (undef : v)
    (tr : List (Event σ)) (i : InstId) (s : σ) :
    ownerCount (run sel (initState undef) tr).subscribers i ≤ 1 ∧
    (∀ h, (run sel (initState undef) tr).slots i = some h →
      (connectBody (run sel (initState undef) tr) i).subscribers =
        unsubscribe h (run sel (initState undef) tr).subscribers ++
          [((run sel (initState undef) tr).nextId, i)]) ∧
    instCalls (pushStep sel (run sel (initState undef) tr) s).requested i ≤
      instCalls (run sel (initState undef) tr).requested i + 1 := by
  have hinv := inv_run sel undef tr
  refine ⟨inv_ownerCount_le_one hinv i, ?_, ?_⟩
  · intro h hsome
    simp [connectBody, hsome]
  · set st := run sel (initState undef) tr with hst
    unfold pushStep
    split
    · exact Nat.le_succ_of_le (Nat.le_refl _)
    · split
      · exact Nat.le_succ_of_le (Nat.le_refl _)
      · show instCalls (st.requested ++ st.subscribers.map (fun p => (p.2, st.currentValue))) i ≤
          instCalls st.requested i + 1
        rw [instCalls_append, instCalls_notifications]
        exact Nat.add_le_add_left (inv_ownerCount_le_one hinv i) _

/-- Witness for C4: after connecting instance `0` twice in a row, the
registry holds at most one entry for it. -/
theorem at_most_one_registration_per_instance_witness :
    ownerCount
        (run (fun s => s) (initState (0 : Nat))
          ([Event.connect 0, Event.connect 0] : List (Event Nat))).subscribers 0 ≤ 1 :=
  (at_most_one_registration_per_instance (fun s => s) 0
    ([Event.connect 0, Event.connect 0] : List (Event Nat)) 0 5).1

end LitWatch
